import Mathlib

/-!
# Authorization middlewares of the submission system

A shallow embedding of `transport/middlewares.go`: the gate `UserAuthMux` and the
authorizers `UserHasAllRoles`, `UserHasAnyRole`, `UserOwnsResource`,
`IsUserWithinResourceLimit` and `UserCanCommentAction`.

Go values of type `(T, error)` are pairs `T × Option Error`, a `nil` error being `none`.
`int64` values are `Int`: the code only compares them, and `ParseInt` checks its range.
External collaborators (cookie decoding, the service lookups) are fields of `App`;
the constants of package `constants`, which the code only names, are fields of `Constants`.
-/

namespace Transport

/-- A Go `error` value, kept as its message. -/
abbrev Error := String

/-- Modelled from the spec: the type `types.Submission` is declared in package `types`;
the code reads only the owner (`SubmitterID`), the spec lists `id, ownerID`. -/
structure Submission where
  ID : Int
  SubmitterID : Int
deriving DecidableEq, Repr

/-- Modelled from the spec: the element type of what `GetSubmissionFiles` returns is
declared in package `types`; the code reads only `SubmitterID`. -/
structure SubmissionFile where
  ID : Int
  SubmitterID : Int
deriving DecidableEq, Repr

/-- Modelled from the spec: `types.SubmissionsFilter` is declared in package `types`;
the code sets either `SubmissionID` or `SubmitterID` (a nil pointer is `none`). -/
structure SubmissionsFilter where
  SubmissionID : Option Int
  SubmitterID : Option Int
deriving DecidableEq, Repr

/-- The part of `*http.Request` the middlewares read: the gorilla/mux path variables
(`mux.Vars(r)`), the result of `r.ParseForm()` and the decoded form (`r.Form`). -/
structure Request where
  Vars : List (String × String)
  ParseFormErr : Option Error
  Form : List (String × List String)
deriving DecidableEq, Repr

/-- Indexing a Go `map[string]string`: a missing key gives the empty string. -/
def mapIndex (m : List (String × String)) (key : String) : String :=
  match m.lookup key with
  | some v => v
  | none => ""

/-- Go `r.FormValue(key)` after a successful `ParseForm`: the first value of the key,
or the empty string. -/
def Request.FormValue (r : Request) (key : String) : String :=
  match r.Form.lookup key with
  | some (v :: _) => v
  | _ => ""

/-- The lookups of `a.Service` the middlewares call (the context argument carries no data
the model reads and is dropped). -/
structure Service where
  GetUIDFromSession : String → Int × Bool × Option Error
  GetUserRoles : Int → List String × Option Error
  SearchSubmissions : SubmissionsFilter → List Submission × Option Error
  GetSubmissionFiles : List Int → List SubmissionFile × Option Error

/-- The receiver `a *App`: the service and the cookie decoder `a.GetSecretFromCookie`. -/
structure App where
  Service : Service
  GetSecretFromCookie : Request → String × Option Error

/-- The names of package `constants` the code refers to; their values are declared in that
package and are parameters here. -/
structure Constants where
  ResourceKeySubmissionID : String
  ResourceKeySubmissionIDs : String
  ResourceKeyFileID : String
  ActionComment : String
  ActionMarkAdded : String
  ActionApprove : String
  ActionReject : String
  ActionRequestChanges : String
  ActionAccept : String
  ActionAssign : String
  ActionUnassign : String
  AdderRoles : List String
  DeciderRoles : List String
  TrialCuratorRoles : List String

/-- An authorizer passed to `UserAuthMux`: `func(*http.Request, int64) (bool, error)`. -/
abbrev Authorizer := Request → Int → Bool × Option Error

/-! ## UserAuthMux -/

/-- What the gate does that can be observed, in order. -/
inductive Event
  | logError (err : Option Error)
  | logInfo (msg : String)
  | httpError (msg : String) (code : Nat)
  | authorizer (i : Nat) (ok : Bool) (err : Option Error)
  | next (uid : Int)
deriving DecidableEq, Repr

def StatusBadRequest : Nat := 400
def StatusUnauthorized : Nat := 401
def StatusInternalServerError : Nat := 500

/-- How the `for _, authorizer := range authorizers` loop of `UserAuthMux` ends: by the
`return` of the error branch, or by falling out of the loop with the value of `allOk`. -/
inductive LoopExit
  | returned
  | done (allOk : Bool)
deriving DecidableEq, Repr

/-- The authorizer loop of `UserAuthMux` (lines 47-58), from the `i`-th authorizer on. -/
def authorizerLoop (r : Request) (uid : Int) : Nat → List Authorizer → List Event × LoopExit
  | _, [] => ([], LoopExit.done true)
  | i, authorizer :: rest =>
    let res := authorizer r uid
    if res.2.isSome then
      ([Event.authorizer i res.1 res.2, Event.logError res.2,
        Event.httpError "failed to verify authority" StatusInternalServerError], LoopExit.returned)
    else if !res.1 then
      ([Event.authorizer i res.1 res.2], LoopExit.done false)
    else
      let tail := authorizerLoop r uid (i + 1) rest
      (Event.authorizer i res.1 res.2 :: tail.1, tail.2)

/-- The handler returned by `UserAuthMux(next, authorizers...)`, run on a request: the trace
of what it does. `Event.next uid` is the call `next(w, r)` with `uid` stored in the context. -/
def UserAuthMux (a : App) (authorizers : List Authorizer) (r : Request) : List Event :=
  let c := a.GetSecretFromCookie r
  if c.2.isSome then
    [Event.logError c.2,
     Event.httpError "failed to parse cookie, please clear your cookies and try again" StatusBadRequest]
  else
    let s := a.Service.GetUIDFromSession c.1
    if s.2.2.isSome then
      [Event.logError s.2.2,
       Event.httpError "failed to load session, please clear your cookies and try again" StatusBadRequest]
    else if !s.2.1 then
      [Event.logError s.2.2,
       Event.httpError "session expired, please log in to continue" StatusUnauthorized]
    else if authorizers.length = 0 then
      [Event.next s.1]
    else
      match authorizerLoop r s.1 0 authorizers with
      | (evs, LoopExit.returned) => evs
      | (evs, LoopExit.done allOk) =>
        if allOk then
          evs ++ [Event.next s.1]
        else
          evs ++ [Event.logInfo "unauthorized attempt",
                  Event.httpError "you do not have the proper authorization to access this page"
                    StatusUnauthorized]

/-- The gate admits with `uid`: the wrapped handler is called with `uid` attached. -/
def admits (trace : List Event) (uid : Int) : Prop := Event.next uid ∈ trace

instance (trace : List Event) (uid : Int) : Decidable (admits trace uid) := by
  unfold admits; infer_instance

/-! ## Role authorizers -/

/-- The inner loop of `UserHasAllRoles` (lines 82-88): is `role` among `requiredRoles`. -/
def foundRole (role : String) : List String → Bool
  | [] => false
  | requiredRole :: rest => if role = requiredRole then true else foundRole role rest

/-- The outer loop of `UserHasAllRoles` (lines 79-93), over `userRoles`: the final value of
`isAuthorized`. -/
def isAuthorized (requiredRoles : List String) : List String → Bool
  | [] => true
  | role :: rest =>
    if !foundRole role requiredRoles then false else isAuthorized requiredRoles rest

/-- `UserHasAllRoles(ctx, uid, requiredRoles)`. -/
def UserHasAllRoles (a : App) (uid : Int) (requiredRoles : List String) : Bool × Option Error :=
  let res := a.Service.GetUserRoles uid
  if res.2.isSome then
    (false, some "failed to get user roles")
  else if !isAuthorized requiredRoles res.1 then
    (false, none)
  else
    (true, none)

/-- Modelled from the spec: `constants.HasAnyRole` is defined in package `constants`;
the spec says the any-role check admits iff the two role lists intersect. -/
def HasAnyRole (userRoles roles : List String) : Bool :=
  userRoles.any (fun role => roles.contains role)

/-- `UserHasAnyRole(r, uid, roles)`. -/
def UserHasAnyRole (a : App) (_r : Request) (uid : Int) (roles : List String) :
    Bool × Option Error :=
  let res := a.Service.GetUserRoles uid
  if res.2.isSome then
    (false, res.2)
  else if !HasAnyRole res.1 roles then
    (false, none)
  else
    (true, none)

/-! ## Library functions the authorizers call -/

/-- The error of `strconv` for a string that is not a number. -/
def ErrSyntax : Error := "invalid syntax"

/-- The error of `strconv` for a number that does not fit the integer type. -/
def ErrRange : Error := "value out of range"

def maxUint64 : Nat := 2 ^ 64 - 1

/-- Conversion to `int64` (two's complement wrap-around). -/
def toInt64 (x : Int) : Int := (x + 2 ^ 63) % 2 ^ 64 - 2 ^ 63

/-- The digit loop of `strconv.ParseUint(s, 10, 64)`. A character that is not an ASCII digit
is a syntax error (with base 10 a letter is a digit that is too large, an underscore is not
accepted); a non-ASCII character stands for bytes that are all at least `0x80`, none of
them a digit. -/
def parseUintLoop : List Char → Nat → Nat × Option Error
  | [], n => (n, none)
  | c :: cs, n =>
    if '0' ≤ c ∧ c ≤ '9' then
      let d := c.toNat - '0'.toNat
      if n ≥ maxUint64 / 10 + 1 then
        (maxUint64, some ErrRange)
      else
        let n10 := n * 10
        let n1 := (n10 + d) % 2 ^ 64
        if n1 < n10 ∨ n1 > maxUint64 then
          (maxUint64, some ErrRange)
        else
          parseUintLoop cs n1
    else
      (0, some ErrSyntax)

/-- `strconv.ParseUint(s, 10, 64)` on the characters of `s`. -/
def ParseUint (s : List Char) : Nat × Option Error :=
  if s = [] then (0, some ErrSyntax) else parseUintLoop s 0

/-- `strconv.ParseInt(s, 10, 64)`. -/
def ParseInt (s : String) : Int × Option Error :=
  match s.data with
  | [] => (0, some ErrSyntax)
  | c0 :: rest =>
    let neg : Bool := decide (c0 = '-')
    let digits := if c0 = '+' then rest else if c0 = '-' then rest else c0 :: rest
    let u := ParseUint digits
    if u.2.isSome ∧ u.2 ≠ some ErrRange then
      (0, u.2)
    else
      let cutoff : Nat := 2 ^ 63
      if !neg ∧ u.1 ≥ cutoff then
        (((cutoff - 1 : Nat) : Int), some ErrRange)
      else if neg ∧ u.1 > cutoff then
        (-(cutoff : Int), some ErrRange)
      else
        let n := toInt64 u.1
        (if neg then toInt64 (-n) else n, none)

/-- The scan of `strings.Split(s, ",")`: `cur` is the piece being read. -/
def splitLoop : List Char → List Char → List String
  | [], cur => [String.mk cur]
  | c :: cs, cur =>
    if c = ',' then String.mk cur :: splitLoop cs [] else splitLoop cs (cur ++ [c])

/-- `strings.Split(s, ",")`: the pieces of `s` between the commas. -/
def Split (s : String) : List String := splitLoop s.data []

/-! ## UserOwnsResource -/

/-- A call to the service made by `UserOwnsResource`. -/
inductive Lookup
  | SearchSubmissions (filter : SubmissionsFilter)
  | GetSubmissionFiles (ids : List Int)
deriving DecidableEq, Repr

/-- How a call of `UserOwnsResource` ends: it returns `(ok, err)`, or it panics. -/
inductive Outcome
  | ret (ok : Bool) (err : Option Error)
  | panic (msg : String)
deriving DecidableEq, Repr

/-- The parsing loop of the id-list branch (lines 147-153): `none` when the function
returns from inside the loop with `false, "invalid submission id"`, else the final `sids`. -/
def parseLoop : List String → List Int → Option (List Int)
  | [], sids => some sids
  | submissionID :: rest, sids =>
    let p := ParseInt submissionID
    if p.2.isSome then none else parseLoop rest (sids ++ [p.1])

/-- The lookup loop of the id-list branch (lines 155-171): the calls made, and the outcome
when the function returns from inside the loop (`none` when the loop runs to its end). -/
def lookupLoop (a : App) (uid : Int) : List Int → List Lookup × Option Outcome
  | [] => ([], none)
  | sid :: rest =>
    let filter : SubmissionsFilter := ⟨some sid, none⟩
    let res := a.Service.SearchSubmissions filter
    if res.2.isSome then
      ([Lookup.SearchSubmissions filter],
        some (Outcome.ret false (some ("failed to load submission with id " ++ toString sid))))
    else
      match res.1 with
      | [] =>
        ([Lookup.SearchSubmissions filter],
          some (Outcome.ret false (some ("submission with id " ++ toString sid ++ " not found"))))
      | submission :: _ =>
        if submission.SubmitterID ≠ uid then
          ([Lookup.SearchSubmissions filter], some (Outcome.ret false none))
        else
          let tail := lookupLoop a uid rest
          (Lookup.SearchSubmissions filter :: tail.1, tail.2)

/-- `UserOwnsResource(r, uid, resourceKey)`: the calls it makes to the service, in order,
and its outcome. -/
def UserOwnsResource (c : Constants) (a : App) (r : Request) (uid : Int) (resourceKey : String) :
    List Lookup × Outcome :=
  if resourceKey = c.ResourceKeySubmissionID then
    let submissionID := mapIndex r.Vars c.ResourceKeySubmissionID
    let p := ParseInt submissionID
    if p.2.isSome then
      ([], Outcome.ret false (some "invalid submission id"))
    else
      let filter : SubmissionsFilter := ⟨some p.1, none⟩
      let res := a.Service.SearchSubmissions filter
      if res.2.isSome then
        ([Lookup.SearchSubmissions filter], Outcome.ret false res.2)
      else
        match res.1 with
        | [] =>
          ([Lookup.SearchSubmissions filter],
            Outcome.ret false (some ("submission with id " ++ toString p.1 ++ " not found")))
        | s :: _ =>
          if s.SubmitterID ≠ uid then
            ([Lookup.SearchSubmissions filter], Outcome.ret false none)
          else
            ([Lookup.SearchSubmissions filter], Outcome.ret true none)
  else if resourceKey = c.ResourceKeySubmissionIDs then
    let submissionIDs := Split (mapIndex r.Vars "submission-ids")
    match parseLoop submissionIDs [] with
    | none => ([], Outcome.ret false (some "invalid submission id"))
    | some sids =>
      match lookupLoop a uid sids with
      | (calls, some out) => (calls, out)
      | (calls, none) => (calls, Outcome.ret true none)
  else if resourceKey = c.ResourceKeyFileID then
    let submissionID := mapIndex r.Vars c.ResourceKeyFileID
    let p := ParseInt submissionID
    if p.2.isSome then
      ([], Outcome.ret false none)
    else
      let res := a.Service.GetSubmissionFiles [p.1]
      if res.2.isSome then
        ([Lookup.GetSubmissionFiles [p.1]], Outcome.ret false res.2)
      else
        match res.1 with
        | [] => ([Lookup.GetSubmissionFiles [p.1]], Outcome.panic "index out of range [0] with length 0")
        | sf :: _ =>
          if sf.SubmitterID ≠ uid then
            ([Lookup.GetSubmissionFiles [p.1]], Outcome.ret false none)
          else
            ([Lookup.GetSubmissionFiles [p.1]], Outcome.ret true none)
  else
    ([], Outcome.ret false (some "invalid resource"))

/-! ## IsUserWithinResourceLimit -/

/-- `IsUserWithinResourceLimit(r, uid, resourceKey, resourceAmount)`. -/
def IsUserWithinResourceLimit (c : Constants) (a : App) (_r : Request) (uid : Int)
    (resourceKey : String) (resourceAmount : Int) : Bool × Option Error :=
  if resourceKey = c.ResourceKeySubmissionID then
    let res := a.Service.SearchSubmissions ⟨none, some uid⟩
    if res.2.isSome then
      (false, res.2)
    else if (res.1.length : Int) ≥ resourceAmount then
      (false, none)
    else
      (true, none)
  else
    (false, some "invalid resource")

/-! ## UserCanCommentAction -/

/-- The innermost loop of `canDo` (lines 235-240): is `userRole` among `roles`. -/
def hasRole (userRole : String) : List String → Bool
  | [] => false
  | role :: rest => if role = userRole then true else hasRole userRole rest

/-- The loop of `canDo` over `userRoles` (lines 233-244): `true` when it returns `true`,
`false` when it runs to its end. -/
def userRolesLoop (roles : List String) : List String → Bool
  | [] => false
  | userRole :: rest => if hasRole userRole roles then true else userRolesLoop roles rest

/-- The closure `canDo(actions, roles)` of `UserCanCommentAction`, which captures
`formAction` and `userRoles`. -/
def canDo (formAction : String) (userRoles : List String) : List String → List String → Bool
  | [], _ => false
  | action :: rest, roles =>
    if action = formAction then userRolesLoop roles userRoles
    else canDo formAction userRoles rest roles

/-- `UserCanCommentAction(r, uid)`. -/
def UserCanCommentAction (c : Constants) (a : App) (r : Request) (uid : Int) :
    Bool × Option Error :=
  if r.ParseFormErr.isSome then
    (false, r.ParseFormErr)
  else
    let res := a.Service.GetUserRoles uid
    if res.2.isSome then
      (false, res.2)
    else
      let userRoles := res.1
      let formAction := r.FormValue "action"
      let canComment : Bool := decide (formAction = c.ActionComment)
      let isAdder := canDo formAction userRoles [c.ActionMarkAdded] c.AdderRoles
      let isDecider := canDo formAction userRoles
        [c.ActionApprove, c.ActionReject, c.ActionRequestChanges, c.ActionAccept] c.DeciderRoles
      let canAssign :=
        canDo formAction userRoles [c.ActionAssign, c.ActionUnassign] c.DeciderRoles ||
        canDo formAction userRoles [c.ActionAssign, c.ActionUnassign] c.AdderRoles ||
        canDo formAction userRoles [c.ActionAssign, c.ActionUnassign] c.TrialCuratorRoles
      (canComment || isAdder || isDecider || canAssign, none)

/-! ## Concrete values used to evaluate the model -/

/-- Values for the constants: three distinct resource keys, eight distinct actions. -/
def exampleConstants : Constants :=
  ⟨"submission-id", "submission-ids", "file-id",
   "comment", "mark-added", "approve", "reject", "request-changes", "accept",
   "assign", "unassign",
   ["Administrator", "Adder"], ["Administrator", "Curator"], ["Trial Curator"]⟩

/-! ## Predicates used to state the properties -/

/-- Identity resolution succeeds with `uid`: the cookie decodes, and `GetUIDFromSession`
returns `uid` and a valid session without error. -/
def resolvesTo (a : App) (r : Request) (uid : Int) : Prop :=
  (a.GetSecretFromCookie r).2 = none ∧
  (a.Service.GetUIDFromSession (a.GetSecretFromCookie r).1).2.2 = none ∧
  (a.Service.GetUIDFromSession (a.GetSecretFromCookie r).1).2.1 = true ∧
  (a.Service.GetUIDFromSession (a.GetSecretFromCookie r).1).1 = uid

/-- The owner the lookup reports for the submission `sid`: the `SubmitterID` of the first
submission returned, `none` when the lookup fails or returns no submission. -/
def ownerOf (a : App) (sid : Int) : Option Int :=
  let res := a.Service.SearchSubmissions ⟨some sid, none⟩
  if res.2.isSome then none else res.1.head?.map Submission.SubmitterID

/-- Two role lists share a role. -/
def sharesRole (userRoles roles : List String) : Prop := ∃ role ∈ userRoles, role ∈ roles

instance (userRoles roles : List String) : Decidable (sharesRole userRoles roles) := by
  unfold sharesRole; infer_instance

/-- The rule of `UserCanCommentAction` as the specification words it: the action is the
comment action, or an action of one of the three groups with a role of the user among the
roles that group is granted to. -/
def actionGranted (c : Constants) (action : String) (userRoles : List String) : Prop :=
  action = c.ActionComment ∨
  (action = c.ActionMarkAdded ∧ sharesRole userRoles c.AdderRoles) ∨
  ((action = c.ActionApprove ∨ action = c.ActionReject ∨ action = c.ActionRequestChanges ∨
      action = c.ActionAccept) ∧ sharesRole userRoles c.DeciderRoles) ∨
  ((action = c.ActionAssign ∨ action = c.ActionUnassign) ∧
    sharesRole userRoles (c.DeciderRoles ++ c.AdderRoles ++ c.TrialCuratorRoles))

instance (c : Constants) (action : String) (userRoles : List String) :
    Decidable (actionGranted c action userRoles) := by
  unfold actionGranted; infer_instance

instance (a : App) (r : Request) (uid : Int) : Decidable (resolvesTo a r uid) := by
  unfold resolvesTo; infer_instance

/-- An application whose role lookup returns `roles` for every user and whose submission
search is `search`; cookies decode to the secret `"secret"`, which belongs to user 7. -/
def exampleApp (roles : List String)
    (search : SubmissionsFilter → List Submission × Option Error) : App :=
  ⟨⟨fun secret => if secret = "secret" then (7, true, none) else (0, false, none),
    fun _ => (roles, none),
    search,
    fun _ => ([], none)⟩,
   fun _ => ("secret", none)⟩

/-- A submission store: submissions 3 and 4 belong to user 7, submission 5 to user 8, no
other submission exists; user 7 has two submissions, every other user none. -/
def exampleSearch (filter : SubmissionsFilter) : List Submission × Option Error :=
  match filter with
  | ⟨some sid, _⟩ =>
    if sid = 3 then ([⟨3, 7⟩], none)
    else if sid = 4 then ([⟨4, 7⟩], none)
    else if sid = 5 then ([⟨5, 8⟩], none)
    else ([], none)
  | ⟨none, some uid⟩ => if uid = 7 then ([⟨3, 7⟩, ⟨4, 7⟩], none) else ([], none)
  | ⟨none, none⟩ => ([⟨3, 7⟩, ⟨4, 7⟩, ⟨5, 8⟩], none)

/-- A submission store whose every lookup fails. -/
def failingSearch (_filter : SubmissionsFilter) : List Submission × Option Error :=
  ([], some "database unreachable")

/-- A request with the given path variables and submitted action. -/
def exampleRequest (vars : List (String × String)) (action : String) : Request :=
  ⟨vars, none, [("action", [action])]⟩

/-- The events of `n` consecutive authorizers, from the `i`-th on, that each return
`(true, nil)`. -/
def passedEvents : Nat → Nat → List Event
  | _, 0 => []
  | i, n + 1 => Event.authorizer i true none :: passedEvents (i + 1) n

/-- An application whose cookies decode to `"secret"` and whose session lookup returns
`session` for every secret; its role lookup returns `roles`. -/
def sessionApp (session : Int × Bool × Option Error) (roles : List String × Option Error) : App :=
  ⟨⟨fun _ => session, fun _ => roles, exampleSearch, fun _ => ([], none)⟩,
   fun _ => ("secret", none)⟩

/-- An authorizer that admits every user. -/
def allowAuthorizer : Authorizer := fun _ _ => (true, none)

/-- An authorizer that denies every user without error. -/
def denyAuthorizer : Authorizer := fun _ _ => (false, none)

/-- An authorizer that returns `true` together with an error. -/
def errorAuthorizer : Authorizer := fun _ _ => (true, some "lookup failed")

/-! ## UserAuthMux: proofs -/

theorem authorizerLoop_no_next (r : Request) (uid u : Int) (l : List Authorizer) (i : Nat) :
    Event.next u ∉ (authorizerLoop r uid i l).1 := by
  induction l generalizing i with
  | nil => simp [authorizerLoop]
  | cons f rest ih =>
    simp only [authorizerLoop]
    split_ifs
    · simp
    · simp
    · simpa using ih (i + 1)

theorem authorizerLoop_done_true (r : Request) (uid : Int) (l : List Authorizer) (i : Nat) :
    (authorizerLoop r uid i l).2 = LoopExit.done true ↔ ∀ f ∈ l, f r uid = (true, none) := by
  induction l generalizing i with
  | nil => simp [authorizerLoop]
  | cons f rest ih =>
    simp only [authorizerLoop, List.mem_cons, forall_eq_or_imp]
    rcases hres : f r uid with ⟨ok, err⟩
    cases err with
    | some e => simp
    | none =>
      cases ok with
      | false => simp
      | true => simpa using ih (i + 1)

/-- C1: the gate built by `UserAuthMux` admits with a user ID exactly when identity resolution
succeeds with that ID and every authorizer of the list returns `(true, nil)` for the request
and that ID; with no authorizer it admits exactly when identity resolves. -/
theorem UserAuthMux_admits_iff (a : App) (authorizers : List Authorizer) (r : Request)
    (uid : Int) :
    (admits (UserAuthMux a authorizers r) uid ↔
      resolvesTo a r uid ∧ ∀ f ∈ authorizers, f r uid = (true, none)) ∧
    (admits (UserAuthMux a [] r) uid ↔ resolvesTo a r uid) := by
  have key : ∀ l : List Authorizer, admits (UserAuthMux a l r) uid ↔
      resolvesTo a r uid ∧ ∀ f ∈ l, f r uid = (true, none) := by
    intro l
    unfold admits resolvesTo UserAuthMux
    rcases hc : a.GetSecretFromCookie r with ⟨secret, cerr⟩
    cases cerr with
    | some e => simp
    | none =>
      rcases hs : a.Service.GetUIDFromSession secret with ⟨sid, ok, serr⟩
      simp only [hs]
      cases serr with
      | some e => simp
      | none =>
        cases ok with
        | false => simp
        | true =>
          cases l with
          | nil => simp [eq_comm]
          | cons f rest =>
            have hno := authorizerLoop_no_next r sid uid (f :: rest) 0
            have hdone := authorizerLoop_done_true r sid (f :: rest) 0
            rcases hl : authorizerLoop r sid 0 (f :: rest) with ⟨evs, ex⟩
            rw [hl] at hno hdone
            simp only at hno hdone
            simp only [Option.isSome_none, Bool.false_eq_true, if_false, Bool.not_true,
              List.length_cons, Nat.succ_ne_zero, true_and]
            by_cases hu : sid = uid
            · subst hu
              cases ex with
              | returned => simpa [hno] using hdone
              | done allOk =>
                cases allOk with
                | true => simpa using hdone
                | false => simpa [hno] using hdone
            · have hne : ¬ uid = sid := fun h => hu h.symm
              cases ex with
              | returned => simp [hno, hu]
              | done allOk =>
                cases allOk with
                | true => simp [hno, hu, hne]
                | false => simp [hno, hu]
  exact ⟨key authorizers, by simpa using key []⟩

/-! ## UserHasAllRoles: proofs -/

/-- C2: `UserHasAllRoles` does not decide whether the user's roles include all required roles.
A user holding `Administrator` and `Curator`, asked for `Curator`, holds every required role,
and the function returns `(false, nil)`. -/
theorem UserHasAllRoles_superset_denied :
    (∀ role ∈ ["Curator"], role ∈ ["Administrator", "Curator"]) ∧
    ((exampleApp ["Administrator", "Curator"] exampleSearch).Service.GetUserRoles 7).2 = none ∧
    UserHasAllRoles (exampleApp ["Administrator", "Curator"] exampleSearch) 7 ["Curator"]
      = (false, none) := by
  decide

/-- C3: `UserHasAllRoles` with an empty list of required roles does not admit a user who
holds a role: for a user holding `Curator` it returns `(false, nil)`. -/
theorem UserHasAllRoles_empty_required_denied :
    ((exampleApp ["Curator"] exampleSearch).Service.GetUserRoles 7).2 = none ∧
    UserHasAllRoles (exampleApp ["Curator"] exampleSearch) 7 [] = (false, none) := by
  decide

/-! ## UserOwnsResource: proofs -/

theorem parseLoop_all_parse (l : List String) (acc : List Int)
    (h : ∀ e ∈ l, (ParseInt e).2 = none) :
    parseLoop l acc = some (acc ++ l.map (fun e => (ParseInt e).1)) := by
  induction l generalizing acc with
  | nil => simp [parseLoop]
  | cons e rest ih =>
    have he : (ParseInt e).2 = none := h e (List.mem_cons_self _ _)
    have hrest : ∀ x ∈ rest, (ParseInt x).2 = none :=
      fun x hx => h x (List.mem_cons_of_mem _ hx)
    simp only [parseLoop, he, Option.isSome_none, Bool.false_eq_true, if_false]
    rw [ih _ hrest]
    simp

theorem parseLoop_some_bad (l : List String) (acc : List Int)
    (h : ∃ e ∈ l, (ParseInt e).2 ≠ none) : parseLoop l acc = none := by
  induction l generalizing acc with
  | nil => simp at h
  | cons e rest ih =>
    simp only [parseLoop]
    cases he : (ParseInt e).2 with
    | some err => simp
    | none =>
      simp only [Option.isSome_none, Bool.false_eq_true, if_false]
      apply ih
      rcases h with ⟨x, hx, hbad⟩
      rcases List.mem_cons.mp hx with rfl | hx
      · exact absurd he hbad
      · exact ⟨x, hx, hbad⟩

theorem lookupLoop_cons_owned (a : App) (uid sid : Int) (rest : List Int)
    (h : ownerOf a sid = some uid) :
    (lookupLoop a uid (sid :: rest)).2 = (lookupLoop a uid rest).2 := by
  unfold ownerOf at h
  simp only [lookupLoop]
  rcases hres : a.Service.SearchSubmissions ⟨some sid, none⟩ with ⟨subs, err⟩
  rw [hres] at h
  cases err with
  | some e => simp at h
  | none =>
    cases subs with
    | nil => simp at h
    | cons s tl =>
      have hs : s.SubmitterID = uid := by simpa using h
      simp [hs]

theorem lookupLoop_cons_missing (a : App) (uid sid : Int) (rest : List Int)
    (h : ownerOf a sid = none) :
    ∃ e, (lookupLoop a uid (sid :: rest)).2 = some (Outcome.ret false (some e)) := by
  unfold ownerOf at h
  simp only [lookupLoop]
  rcases hres : a.Service.SearchSubmissions ⟨some sid, none⟩ with ⟨subs, err⟩
  rw [hres] at h
  cases err with
  | some e => simp
  | none =>
    cases subs with
    | nil => simp
    | cons s tl => simp at h

theorem lookupLoop_cons_not_owned (a : App) (uid sid owner : Int) (rest : List Int)
    (h : ownerOf a sid = some owner) (hne : owner ≠ uid) :
    (lookupLoop a uid (sid :: rest)).2 = some (Outcome.ret false none) := by
  unfold ownerOf at h
  simp only [lookupLoop]
  rcases hres : a.Service.SearchSubmissions ⟨some sid, none⟩ with ⟨subs, err⟩
  rw [hres] at h
  cases err with
  | some e => simp at h
  | none =>
    cases subs with
    | nil => simp at h
    | cons s tl =>
      have hs : s.SubmitterID = owner := by simpa using h
      simp [hs, hne]

theorem lookupLoop_append_owned (a : App) (uid : Int) (pre l : List Int)
    (h : ∀ x ∈ pre, ownerOf a x = some uid) :
    (lookupLoop a uid (pre ++ l)).2 = (lookupLoop a uid l).2 := by
  induction pre with
  | nil => rfl
  | cons x rest ih =>
    rw [List.cons_append, lookupLoop_cons_owned a uid x _ (h x (List.mem_cons_self _ _))]
    exact ih (fun y hy => h y (List.mem_cons_of_mem _ hy))

theorem lookupLoop_none_iff (a : App) (uid : Int) (sids : List Int) :
    (lookupLoop a uid sids).2 = none ↔ ∀ sid ∈ sids, ownerOf a sid = some uid := by
  induction sids with
  | nil => simp [lookupLoop]
  | cons sid rest ih =>
    simp only [List.mem_cons, forall_eq_or_imp]
    cases ho : ownerOf a sid with
    | none =>
      rcases lookupLoop_cons_missing a uid sid rest ho with ⟨e, he⟩
      simp [he]
    | some owner =>
      by_cases hu : owner = uid
      · subst hu
        rw [lookupLoop_cons_owned a owner sid rest ho, ih]
        simp
      · rw [lookupLoop_cons_not_owned a uid sid owner rest ho hu]
        simp [hu]

theorem lookupLoop_never_true (a : App) (uid : Int) (l : List Int) :
    (lookupLoop a uid l).2 ≠ some (Outcome.ret true none) := by
  induction l with
  | nil => simp [lookupLoop]
  | cons x rest ih =>
    cases hx : ownerOf a x with
    | none =>
      rcases lookupLoop_cons_missing a uid x rest hx with ⟨e, he⟩
      simp [he]
    | some owner =>
      by_cases hu : owner = uid
      · subst hu
        rw [lookupLoop_cons_owned a owner x rest hx]
        exact ih
      · rw [lookupLoop_cons_not_owned a uid x owner rest hx hu]
        simp

theorem ownsIdList_eq_lookupLoop (c : Constants) (a : App) (r : Request) (uid : Int)
    (resourceKey : String) (sids : List Int)
    (hkey : resourceKey = c.ResourceKeySubmissionIDs)
    (hne : c.ResourceKeySubmissionIDs ≠ c.ResourceKeySubmissionID)
    (hparse : parseLoop (Split (mapIndex r.Vars "submission-ids")) [] = some sids) :
    (UserOwnsResource c a r uid resourceKey).2 =
      match (lookupLoop a uid sids).2 with
      | some out => out
      | none => Outcome.ret true none := by
  subst hkey
  unfold UserOwnsResource
  simp only [hne, if_false, if_true, hparse]
  rcases hl : lookupLoop a uid sids with ⟨calls, out⟩
  cases out <;> rfl

/-- C4: `UserOwnsResource` with the id-list key, when every comma-separated entry of the
`submission-ids` parameter parses, the ids being `sids`: it returns `(true, nil)` exactly when
the lookup reports owner `uid` for every id; and when the ids before some id are all owned by
`uid`, it returns an error if that id is missing (or its lookup fails) and `(false, nil)` if
that id has another owner, whatever ids follow. -/
theorem UserOwnsResource_idList_decided (c : Constants) (a : App) (r : Request) (uid : Int)
    (resourceKey : String)
    (hkey : resourceKey = c.ResourceKeySubmissionIDs)
    (hne : c.ResourceKeySubmissionIDs ≠ c.ResourceKeySubmissionID)
    (hparse : ∀ e ∈ Split (mapIndex r.Vars "submission-ids"), (ParseInt e).2 = none) :
    ((UserOwnsResource c a r uid resourceKey).2 = Outcome.ret true none ↔
      ∀ sid ∈ (Split (mapIndex r.Vars "submission-ids")).map (fun e => (ParseInt e).1),
        ownerOf a sid = some uid) ∧
    (∀ pre sid post,
      (Split (mapIndex r.Vars "submission-ids")).map (fun e => (ParseInt e).1)
        = pre ++ sid :: post →
      (∀ x ∈ pre, ownerOf a x = some uid) →
      (ownerOf a sid = none →
        ∃ e, (UserOwnsResource c a r uid resourceKey).2 = Outcome.ret false (some e)) ∧
      (∀ owner, ownerOf a sid = some owner → owner ≠ uid →
        (UserOwnsResource c a r uid resourceKey).2 = Outcome.ret false none)) := by
  have hp := parseLoop_all_parse _ [] hparse
  rw [List.nil_append] at hp
  have heq := ownsIdList_eq_lookupLoop c a r uid resourceKey _ hkey hne hp
  refine ⟨?_, ?_⟩
  · rw [heq, ← lookupLoop_none_iff]
    cases hl : (lookupLoop a uid
        ((Split (mapIndex r.Vars "submission-ids")).map (fun e => (ParseInt e).1))).2 with
    | none => simp
    | some out =>
      simp only [reduceCtorEq, iff_false]
      intro hout
      subst hout
      exact lookupLoop_never_true a uid _ hl
  · intro pre sid post hsplit hpre
    rw [heq, hsplit, lookupLoop_append_owned a uid pre _ hpre]
    refine ⟨?_, ?_⟩
    · intro hmiss
      rcases lookupLoop_cons_missing a uid sid post hmiss with ⟨e, he⟩
      exact ⟨e, by rw [he]⟩
    · intro owner ho hu
      rw [lookupLoop_cons_not_owned a uid sid owner post ho hu]

/-- Witness of C4: with ids `3,5,9`, submission 3 owned by user 7, submission 5 by user 8 and
submission 9 missing, the check for user 7 is decided by id 5: `(false, nil)`. -/
theorem UserOwnsResource_idList_decided_witness :
    (∀ e ∈ Split (mapIndex (exampleRequest [("submission-ids", "3,5,9")] "comment").Vars
        "submission-ids"), (ParseInt e).2 = none) ∧
    (UserOwnsResource exampleConstants (exampleApp [] exampleSearch)
      (exampleRequest [("submission-ids", "3,5,9")] "comment") 7 "submission-ids").2
      = Outcome.ret false none :=
  ⟨by decide,
   ((UserOwnsResource_idList_decided exampleConstants (exampleApp [] exampleSearch)
      (exampleRequest [("submission-ids", "3,5,9")] "comment") 7 "submission-ids"
      rfl (by decide) (by decide)).2 [3] 5 [9] (by decide) (by decide)).2 8
      (by decide) (by decide)⟩

/-- C5: `UserOwnsResource` with the single-id key: an error when the path parameter does not
parse; an error when it parses and the lookup fails or returns no submission; when the lookup
returns a submission, `(true, nil)` if its `SubmitterID` is `uid` and `(false, nil)` if not. -/
theorem UserOwnsResource_single (c : Constants) (a : App) (r : Request) (uid : Int)
    (resourceKey : String) (hkey : resourceKey = c.ResourceKeySubmissionID) :
    ((ParseInt (mapIndex r.Vars c.ResourceKeySubmissionID)).2 ≠ none →
      ∃ e, (UserOwnsResource c a r uid resourceKey).2 = Outcome.ret false (some e)) ∧
    ((ParseInt (mapIndex r.Vars c.ResourceKeySubmissionID)).2 = none →
      ((a.Service.SearchSubmissions
          ⟨some (ParseInt (mapIndex r.Vars c.ResourceKeySubmissionID)).1, none⟩).2 ≠ none ∨
        (a.Service.SearchSubmissions
          ⟨some (ParseInt (mapIndex r.Vars c.ResourceKeySubmissionID)).1, none⟩).1 = [] →
        ∃ e, (UserOwnsResource c a r uid resourceKey).2 = Outcome.ret false (some e)) ∧
      ∀ s rest,
        a.Service.SearchSubmissions
          ⟨some (ParseInt (mapIndex r.Vars c.ResourceKeySubmissionID)).1, none⟩
          = (s :: rest, none) →
        (s.SubmitterID = uid →
          (UserOwnsResource c a r uid resourceKey).2 = Outcome.ret true none) ∧
        (s.SubmitterID ≠ uid →
          (UserOwnsResource c a r uid resourceKey).2 = Outcome.ret false none)) := by
  subst hkey
  unfold UserOwnsResource
  simp only [if_true]
  rcases hp : ParseInt (mapIndex r.Vars c.ResourceKeySubmissionID) with ⟨sid, perr⟩
  cases perr with
  | some e => simp
  | none =>
    simp only [ne_eq, not_true_eq_false, false_implies, true_and, forall_true_left,
      Option.isSome_none, Bool.false_eq_true, if_false]
    rcases hres : a.Service.SearchSubmissions ⟨some sid, none⟩ with ⟨subs, err⟩
    cases err with
    | some e => simp
    | none =>
      cases subs with
      | nil => simp
      | cons s tl =>
        simp only [Option.isSome_none, Bool.false_eq_true, if_false, ne_eq, not_true_eq_false,
          reduceCtorEq, or_self, false_implies, true_and, Prod.mk.injEq, List.cons.injEq,
          and_true, and_imp]
        intro s2 rest hs _
        subst hs
        constructor
        · intro h; simp [h]
        · intro h; simp [h]

/-- Witness of C5: submission 5 belongs to user 8, so user 7 is denied without error. -/
theorem UserOwnsResource_single_witness :
    (UserOwnsResource exampleConstants (exampleApp [] exampleSearch)
      (exampleRequest [("submission-id", "5")] "comment") 7 "submission-id").2
      = Outcome.ret false none :=
  (((UserOwnsResource_single exampleConstants (exampleApp [] exampleSearch)
      (exampleRequest [("submission-id", "5")] "comment") 7 "submission-id" rfl).2
      (by decide)).2 ⟨5, 8⟩ [] (by decide)).2 (by decide)

/-- C6: `UserOwnsResource` with the id-list key, when some comma-separated entry of the
`submission-ids` parameter does not parse: it returns the error `invalid submission id`
without any call to the service, and so returns the same for every application. -/
theorem UserOwnsResource_unparseable_entry (c : Constants) (a : App) (r : Request) (uid : Int)
    (resourceKey : String)
    (hkey : resourceKey = c.ResourceKeySubmissionIDs)
    (hne : c.ResourceKeySubmissionIDs ≠ c.ResourceKeySubmissionID)
    (hbad : ∃ e ∈ Split (mapIndex r.Vars "submission-ids"), (ParseInt e).2 ≠ none) :
    UserOwnsResource c a r uid resourceKey
      = ([], Outcome.ret false (some "invalid submission id")) ∧
    ∀ a2 : App, UserOwnsResource c a2 r uid resourceKey = UserOwnsResource c a r uid resourceKey := by
  have h : ∀ b : App, UserOwnsResource c b r uid resourceKey
      = ([], Outcome.ret false (some "invalid submission id")) := by
    intro b
    subst hkey
    unfold UserOwnsResource
    simp only [hne, if_false, if_true, parseLoop_some_bad _ [] hbad]
  exact ⟨h a, fun a2 => by rw [h a2, h a]⟩

/-- Witness of C6: the parameter `3,4,notanumber`, with a store in which every lookup would
fail. -/
theorem UserOwnsResource_unparseable_entry_witness :
    (∃ e ∈ Split (mapIndex (exampleRequest [("submission-ids", "3,4,notanumber")] "comment").Vars
        "submission-ids"), (ParseInt e).2 ≠ none) ∧
    UserOwnsResource exampleConstants (exampleApp [] failingSearch)
      (exampleRequest [("submission-ids", "3,4,notanumber")] "comment") 7 "submission-ids"
      = ([], Outcome.ret false (some "invalid submission id")) :=
  ⟨by decide,
   (UserOwnsResource_unparseable_entry exampleConstants (exampleApp [] failingSearch)
      (exampleRequest [("submission-ids", "3,4,notanumber")] "comment") 7 "submission-ids"
      rfl (by decide) (by decide)).1⟩

/-! ## IsUserWithinResourceLimit: proofs -/

/-- C7: `IsUserWithinResourceLimit` with the submission key, when the lookup of the user's
submissions succeeds with `subs`: it returns `(true, nil)` exactly when the number of
submissions is below `resourceAmount`, and `(false, nil)` otherwise; so it admits at
`resourceAmount - 1` submissions and denies at `resourceAmount`. -/
theorem IsUserWithinResourceLimit_iff (c : Constants) (a : App) (r : Request) (uid : Int)
    (resourceKey : String) (resourceAmount : Int) (subs : List Submission)
    (hkey : resourceKey = c.ResourceKeySubmissionID)
    (hsearch : a.Service.SearchSubmissions ⟨none, some uid⟩ = (subs, none)) :
    (IsUserWithinResourceLimit c a r uid resourceKey resourceAmount = (true, none) ↔
      (subs.length : Int) < resourceAmount) ∧
    (¬ (subs.length : Int) < resourceAmount →
      IsUserWithinResourceLimit c a r uid resourceKey resourceAmount = (false, none)) ∧
    ((subs.length : Int) = resourceAmount - 1 →
      IsUserWithinResourceLimit c a r uid resourceKey resourceAmount = (true, none)) ∧
    ((subs.length : Int) = resourceAmount →
      IsUserWithinResourceLimit c a r uid resourceKey resourceAmount = (false, none)) := by
  subst hkey
  have hval : IsUserWithinResourceLimit c a r uid c.ResourceKeySubmissionID resourceAmount
      = if (subs.length : Int) ≥ resourceAmount then (false, none) else (true, none) := by
    unfold IsUserWithinResourceLimit
    simp [hsearch]
  rw [hval]
  refine ⟨?_, ?_, ?_, ?_⟩
  · split_ifs with h
    · simp only [Prod.mk.injEq, Bool.false_eq_true, and_true, false_iff, not_lt]
      exact h
    · simp only [true_iff]
      exact lt_of_not_ge h
  · intro h
    rw [if_pos (le_of_not_lt h)]
  · intro h
    rw [if_neg (by omega)]
  · intro h
    rw [if_pos (by omega)]

/-- Witness of C7: user 7 has two submissions; with limit 2 the check denies. -/
theorem IsUserWithinResourceLimit_iff_witness :
    IsUserWithinResourceLimit exampleConstants (exampleApp [] exampleSearch)
      (exampleRequest [] "comment") 7 "submission-id" 2 = (false, none) :=
  (IsUserWithinResourceLimit_iff exampleConstants (exampleApp [] exampleSearch)
    (exampleRequest [] "comment") 7 "submission-id" 2 [⟨3, 7⟩, ⟨4, 7⟩] rfl rfl).2.2.2 (by decide)

/-! ## UserCanCommentAction: proofs -/

theorem hasRole_iff (userRole : String) (roles : List String) :
    hasRole userRole roles = true ↔ userRole ∈ roles := by
  induction roles with
  | nil => simp [hasRole]
  | cons role rest ih =>
    simp only [hasRole, List.mem_cons]
    split_ifs with h
    · simp [h]
    · rw [ih]
      constructor
      · exact Or.inr
      · rintro (h2 | h2)
        · exact absurd h2.symm h
        · exact h2

theorem userRolesLoop_iff (roles userRoles : List String) :
    userRolesLoop roles userRoles = true ↔ sharesRole userRoles roles := by
  unfold sharesRole
  induction userRoles with
  | nil => simp [userRolesLoop]
  | cons userRole rest ih =>
    simp only [userRolesLoop, List.mem_cons]
    split_ifs with h
    · simp only [true_iff]
      exact ⟨userRole, Or.inl rfl, (hasRole_iff _ _).mp h⟩
    · rw [ih]
      constructor
      · rintro ⟨x, hx, hr⟩
        exact ⟨x, Or.inr hx, hr⟩
      · rintro ⟨x, hx | hx, hr⟩
        · subst hx
          exact absurd ((hasRole_iff _ _).mpr hr) h
        · exact ⟨x, hx, hr⟩

theorem canDo_iff (formAction : String) (userRoles actions roles : List String) :
    canDo formAction userRoles actions roles = true ↔
      formAction ∈ actions ∧ sharesRole userRoles roles := by
  induction actions with
  | nil => simp [canDo]
  | cons action rest ih =>
    simp only [canDo, List.mem_cons]
    split_ifs with h
    · rw [userRolesLoop_iff]
      simp [h]
    · rw [ih]
      have hne : ¬ formAction = action := fun h2 => h h2.symm
      simp [hne]

theorem sharesRole_append (userRoles r1 r2 : List String) :
    sharesRole userRoles (r1 ++ r2) ↔ sharesRole userRoles r1 ∨ sharesRole userRoles r2 := by
  unfold sharesRole
  constructor
  · rintro ⟨x, hx, hr⟩
    rcases List.mem_append.mp hr with h | h
    · exact Or.inl ⟨x, hx, h⟩
    · exact Or.inr ⟨x, hx, h⟩
  · rintro (⟨x, hx, h⟩ | ⟨x, hx, h⟩)
    · exact ⟨x, hx, List.mem_append.mpr (Or.inl h)⟩
    · exact ⟨x, hx, List.mem_append.mpr (Or.inr h)⟩

/-- The value of `UserCanCommentAction` when the form decodes and the role lookup succeeds. -/
theorem UserCanCommentAction_value (c : Constants) (a : App) (r : Request) (uid : Int)
    (userRoles : List String) (hform : r.ParseFormErr = none)
    (hroles : a.Service.GetUserRoles uid = (userRoles, none)) :
    UserCanCommentAction c a r uid =
      (decide (r.FormValue "action" = c.ActionComment) ||
        canDo (r.FormValue "action") userRoles [c.ActionMarkAdded] c.AdderRoles ||
        canDo (r.FormValue "action") userRoles
          [c.ActionApprove, c.ActionReject, c.ActionRequestChanges, c.ActionAccept]
          c.DeciderRoles ||
        (canDo (r.FormValue "action") userRoles [c.ActionAssign, c.ActionUnassign]
            c.DeciderRoles ||
          canDo (r.FormValue "action") userRoles [c.ActionAssign, c.ActionUnassign]
            c.AdderRoles ||
          canDo (r.FormValue "action") userRoles [c.ActionAssign, c.ActionUnassign]
            c.TrialCuratorRoles), none) := by
  unfold UserCanCommentAction
  simp [hform, hroles]

/-- C8: when the form decodes and the role lookup succeeds, whatever roles it returns,
`UserCanCommentAction` returns `(true, nil)` for the comment action. -/
theorem UserCanCommentAction_comment (c : Constants) (a : App) (r : Request) (uid : Int)
    (userRoles : List String) (hform : r.ParseFormErr = none)
    (hroles : a.Service.GetUserRoles uid = (userRoles, none))
    (haction : r.FormValue "action" = c.ActionComment) :
    UserCanCommentAction c a r uid = (true, none) := by
  rw [UserCanCommentAction_value c a r uid userRoles hform hroles]
  simp [haction]

/-- Witness of C8: a user without any role submits the comment action. -/
theorem UserCanCommentAction_comment_witness :
    UserCanCommentAction exampleConstants (exampleApp [] exampleSearch)
      (exampleRequest [] "comment") 7 = (true, none) :=
  UserCanCommentAction_comment exampleConstants (exampleApp [] exampleSearch)
    (exampleRequest [] "comment") 7 [] rfl rfl (by decide)

/-- C9: when the form decodes and the role lookup succeeds with `userRoles`,
`UserCanCommentAction` returns `(true, nil)` exactly when the action is the comment action, or
mark-added with a role shared with `AdderRoles`, or one of approve, reject, request-changes,
accept with a role shared with `DeciderRoles`, or assign or unassign with a role shared with
the union of `DeciderRoles`, `AdderRoles` and `TrialCuratorRoles`; otherwise `(false, nil)`. -/
theorem UserCanCommentAction_iff (c : Constants) (a : App) (r : Request) (uid : Int)
    (userRoles : List String) (hform : r.ParseFormErr = none)
    (hroles : a.Service.GetUserRoles uid = (userRoles, none)) :
    (UserCanCommentAction c a r uid = (true, none) ↔
      actionGranted c (r.FormValue "action") userRoles) ∧
    (¬ actionGranted c (r.FormValue "action") userRoles →
      UserCanCommentAction c a r uid = (false, none)) := by
  rw [UserCanCommentAction_value c a r uid userRoles hform hroles]
  have hiff : (decide (r.FormValue "action" = c.ActionComment) ||
        canDo (r.FormValue "action") userRoles [c.ActionMarkAdded] c.AdderRoles ||
        canDo (r.FormValue "action") userRoles
          [c.ActionApprove, c.ActionReject, c.ActionRequestChanges, c.ActionAccept]
          c.DeciderRoles ||
        (canDo (r.FormValue "action") userRoles [c.ActionAssign, c.ActionUnassign]
            c.DeciderRoles ||
          canDo (r.FormValue "action") userRoles [c.ActionAssign, c.ActionUnassign]
            c.AdderRoles ||
          canDo (r.FormValue "action") userRoles [c.ActionAssign, c.ActionUnassign]
            c.TrialCuratorRoles)) = true ↔
      actionGranted c (r.FormValue "action") userRoles := by
    unfold actionGranted
    simp only [Bool.or_eq_true, decide_eq_true_eq, canDo_iff, sharesRole_append,
      List.mem_cons, List.mem_singleton, List.not_mem_nil, or_false]
    tauto
  constructor
  · simp only [Prod.mk.injEq, and_true]
    exact hiff
  · intro hnot
    simp only [Prod.mk.injEq, and_true]
    rw [← Bool.not_eq_true, hiff]
    exact hnot

/-- Witness of C9: a user holding only the trial-curator role may assign. -/
theorem UserCanCommentAction_iff_witness :
    UserCanCommentAction exampleConstants (exampleApp ["Trial Curator"] exampleSearch)
      (exampleRequest [] "assign") 7 = (true, none) :=
  (UserCanCommentAction_iff exampleConstants (exampleApp ["Trial Curator"] exampleSearch)
    (exampleRequest [] "assign") 7 ["Trial Curator"] rfl rfl).1.2 (by decide)

/-- C10: when the form decodes and the role lookup succeeds, whatever roles it returns,
`UserCanCommentAction` returns `(false, nil)` for an action that is none of the eight
configured actions. -/
theorem UserCanCommentAction_unknown_action (c : Constants) (a : App) (r : Request) (uid : Int)
    (userRoles : List String) (hform : r.ParseFormErr = none)
    (hroles : a.Service.GetUserRoles uid = (userRoles, none))
    (hcomment : r.FormValue "action" ≠ c.ActionComment)
    (hmarkAdded : r.FormValue "action" ≠ c.ActionMarkAdded)
    (happrove : r.FormValue "action" ≠ c.ActionApprove)
    (hreject : r.FormValue "action" ≠ c.ActionReject)
    (hrequestChanges : r.FormValue "action" ≠ c.ActionRequestChanges)
    (haccept : r.FormValue "action" ≠ c.ActionAccept)
    (hassign : r.FormValue "action" ≠ c.ActionAssign)
    (hunassign : r.FormValue "action" ≠ c.ActionUnassign) :
    UserCanCommentAction c a r uid = (false, none) := by
  rw [UserCanCommentAction_value c a r uid userRoles hform hroles]
  have h1 : canDo (r.FormValue "action") userRoles [c.ActionMarkAdded] c.AdderRoles = false := by
    rw [← Bool.not_eq_true, canDo_iff]; simp [hmarkAdded]
  have h2 : canDo (r.FormValue "action") userRoles
      [c.ActionApprove, c.ActionReject, c.ActionRequestChanges, c.ActionAccept]
      c.DeciderRoles = false := by
    rw [← Bool.not_eq_true, canDo_iff]; simp [happrove, hreject, hrequestChanges, haccept]
  have h3 : ∀ roles, canDo (r.FormValue "action") userRoles
      [c.ActionAssign, c.ActionUnassign] roles = false := by
    intro roles
    rw [← Bool.not_eq_true, canDo_iff]; simp [hassign, hunassign]
  simp [h1, h2, h3, hcomment]

/-- Witness of C10: a user holding every decider, adder and trial-curator role submits the
action `delete`, which is not configured. -/
theorem UserCanCommentAction_unknown_action_witness :
    UserCanCommentAction exampleConstants
      (exampleApp ["Administrator", "Adder", "Curator", "Trial Curator"] exampleSearch)
      (exampleRequest [] "delete") 7 = (false, none) :=
  UserCanCommentAction_unknown_action exampleConstants
    (exampleApp ["Administrator", "Adder", "Curator", "Trial Curator"] exampleSearch)
    (exampleRequest [] "delete") 7 ["Administrator", "Adder", "Curator", "Trial Curator"]
    rfl rfl (by decide) (by decide) (by decide) (by decide) (by decide) (by decide)
    (by decide) (by decide)

/-! ## UserAuthMux: outcomes of a denial -/

theorem UserAuthMux_resolved (a : App) (l : List Authorizer) (r : Request) (uid : Int)
    (hres : resolvesTo a r uid) (hl : l ≠ []) :
    UserAuthMux a l r =
      match authorizerLoop r uid 0 l with
      | (evs, LoopExit.returned) => evs
      | (evs, LoopExit.done allOk) =>
        if allOk then
          evs ++ [Event.next uid]
        else
          evs ++ [Event.logInfo "unauthorized attempt",
                  Event.httpError "you do not have the proper authorization to access this page"
                    StatusUnauthorized] := by
  obtain ⟨hc, hs, hok, hu⟩ := hres
  have hlen : ¬ l.length = 0 := by
    cases l with
    | nil => exact absurd rfl hl
    | cons f rest => simp
  unfold UserAuthMux
  simp only [hc, hs, hok, hu, hlen, Option.isSome_none, Bool.false_eq_true, if_false,
    Bool.not_true]

theorem authorizerLoop_append_passed (r : Request) (uid : Int) (pre l : List Authorizer)
    (i : Nat) (hpre : ∀ g ∈ pre, g r uid = (true, none)) :
    authorizerLoop r uid i (pre ++ l) =
      (passedEvents i pre.length ++ (authorizerLoop r uid (i + pre.length) l).1,
       (authorizerLoop r uid (i + pre.length) l).2) := by
  induction pre generalizing i with
  | nil => simp [passedEvents]
  | cons g rest ih =>
    have hg : g r uid = (true, none) := hpre g (List.mem_cons_self _ _)
    have hrest : ∀ x ∈ rest, x r uid = (true, none) :=
      fun x hx => hpre x (List.mem_cons_of_mem _ hx)
    have hidx : i + 1 + rest.length = i + (rest.length + 1) := by omega
    have hstep := ih (i + 1) hrest
    rw [hidx] at hstep
    rw [List.cons_append]
    simp only [authorizerLoop, hg, Option.isSome_none, Bool.false_eq_true,
      if_false, Bool.not_true, List.length_cons, passedEvents, hstep, List.cons_append]

theorem passedEvents_no_next (u : Int) (n i : Nat) : Event.next u ∉ passedEvents i n := by
  induction n generalizing i with
  | zero => simp [passedEvents]
  | succ n ih => simpa [passedEvents] using ih (i + 1)

theorem UserAuthMux_cookie_error (a : App) (l : List Authorizer) (r : Request) (e : Error)
    (hc : (a.GetSecretFromCookie r).2 = some e) :
    UserAuthMux a l r =
      [Event.logError (some e),
       Event.httpError "failed to parse cookie, please clear your cookies and try again" 400] := by
  unfold UserAuthMux
  simp [hc, StatusBadRequest]

theorem UserAuthMux_lookup_error (a : App) (l : List Authorizer) (r : Request) (e : Error)
    (hc : (a.GetSecretFromCookie r).2 = none)
    (hs : (a.Service.GetUIDFromSession (a.GetSecretFromCookie r).1).2.2 = some e) :
    UserAuthMux a l r =
      [Event.logError (some e),
       Event.httpError "failed to load session, please clear your cookies and try again" 400] := by
  unfold UserAuthMux
  simp [hc, hs, StatusBadRequest]

theorem UserAuthMux_no_session (a : App) (l : List Authorizer) (r : Request)
    (hc : (a.GetSecretFromCookie r).2 = none)
    (hs : (a.Service.GetUIDFromSession (a.GetSecretFromCookie r).1).2.2 = none)
    (hok : (a.Service.GetUIDFromSession (a.GetSecretFromCookie r).1).2.1 = false) :
    UserAuthMux a l r =
      [Event.logError none,
       Event.httpError "session expired, please log in to continue" 401] := by
  unfold UserAuthMux
  simp [hc, hs, hok, StatusUnauthorized]

theorem UserAuthMux_stops_at_error (a : App) (r : Request) (uid : Int)
    (pre post : List Authorizer) (f : Authorizer) (b : Bool) (e : Error)
    (hres : resolvesTo a r uid) (hpre : ∀ g ∈ pre, g r uid = (true, none))
    (hf : f r uid = (b, some e)) :
    UserAuthMux a (pre ++ f :: post) r =
      passedEvents 0 pre.length ++
        [Event.authorizer pre.length b (some e), Event.logError (some e),
         Event.httpError "failed to verify authority" 500] := by
  rw [UserAuthMux_resolved a _ r uid hres (by simp),
    authorizerLoop_append_passed r uid pre _ 0 hpre]
  simp [authorizerLoop, hf, StatusInternalServerError]

theorem UserAuthMux_stops_at_false (a : App) (r : Request) (uid : Int)
    (pre post : List Authorizer) (f : Authorizer)
    (hres : resolvesTo a r uid) (hpre : ∀ g ∈ pre, g r uid = (true, none))
    (hf : f r uid = (false, none)) :
    UserAuthMux a (pre ++ f :: post) r =
      passedEvents 0 pre.length ++
        [Event.authorizer pre.length false none, Event.logInfo "unauthorized attempt",
         Event.httpError "you do not have the proper authorization to access this page" 401] := by
  rw [UserAuthMux_resolved a _ r uid hres (by simp),
    authorizerLoop_append_passed r uid pre _ 0 hpre]
  simp [authorizerLoop, hf, StatusUnauthorized]

/-- C11, as the claim states it, fails: with a cookie that decodes and a session lookup that
returns an error, the gate answers with status 400, and nothing in its trace is a response
with status 500. -/
theorem UserAuthMux_session_error_not_500 :
    ((sessionApp (0, false, some "database unreachable") ([], none)).GetSecretFromCookie
      (exampleRequest [] "comment")).2 = none ∧
    ((sessionApp (0, false, some "database unreachable") ([], none)).Service.GetUIDFromSession
      "secret").2.2 = some "database unreachable" ∧
    UserAuthMux (sessionApp (0, false, some "database unreachable") ([], none))
      [allowAuthorizer] (exampleRequest [] "comment") =
      [Event.logError (some "database unreachable"),
       Event.httpError "failed to load session, please clear your cookies and try again" 400] ∧
    ∀ msg, Event.httpError msg 500 ∉
      UserAuthMux (sessionApp (0, false, some "database unreachable") ([], none))
        [allowAuthorizer] (exampleRequest [] "comment") := by
  have htrace : UserAuthMux (sessionApp (0, false, some "database unreachable") ([], none))
      [allowAuthorizer] (exampleRequest [] "comment") =
      [Event.logError (some "database unreachable"),
       Event.httpError "failed to load session, please clear your cookies and try again" 400] :=
    UserAuthMux_lookup_error _ _ _ "database unreachable" rfl rfl
  refine ⟨rfl, rfl, htrace, ?_⟩
  intro msg
  rw [htrace]
  simp

/-- C11, amended: when the cookie decodes and `GetUIDFromSession` returns an error, the gate
logs the error and denies with status 400 and the message `failed to load session`; a cookie
that does not decode also gives status 400, a missing or expired session gives 401. -/
theorem UserAuthMux_session_error_400 (a : App) (authorizers : List Authorizer) (r : Request)
    (e : Error)
    (hc : (a.GetSecretFromCookie r).2 = none)
    (hs : (a.Service.GetUIDFromSession (a.GetSecretFromCookie r).1).2.2 = some e) :
    UserAuthMux a authorizers r =
      [Event.logError (some e),
       Event.httpError "failed to load session, please clear your cookies and try again" 400] ∧
    (∀ (a2 : App) (r2 : Request) (e2 : Error), (a2.GetSecretFromCookie r2).2 = some e2 →
      UserAuthMux a2 authorizers r2 =
        [Event.logError (some e2),
         Event.httpError "failed to parse cookie, please clear your cookies and try again"
           400]) ∧
    (∀ (a2 : App) (r2 : Request), (a2.GetSecretFromCookie r2).2 = none →
      (a2.Service.GetUIDFromSession (a2.GetSecretFromCookie r2).1).2.2 = none →
      (a2.Service.GetUIDFromSession (a2.GetSecretFromCookie r2).1).2.1 = false →
      UserAuthMux a2 authorizers r2 =
        [Event.logError none,
         Event.httpError "session expired, please log in to continue" 401]) :=
  ⟨UserAuthMux_lookup_error a authorizers r e hc hs,
   fun a2 r2 e2 h => UserAuthMux_cookie_error a2 authorizers r2 e2 h,
   fun a2 r2 h1 h2 h3 => UserAuthMux_no_session a2 authorizers r2 h1 h2 h3⟩

/-- Witness of C11, amended: a session store that is unreachable. -/
theorem UserAuthMux_session_error_400_witness :
    UserAuthMux (sessionApp (0, false, some "database unreachable") ([], none))
      [denyAuthorizer] (exampleRequest [] "comment") =
      [Event.logError (some "database unreachable"),
       Event.httpError "failed to load session, please clear your cookies and try again" 400] :=
  (UserAuthMux_session_error_400 (sessionApp (0, false, some "database unreachable") ([], none))
    [denyAuthorizer] (exampleRequest [] "comment") "database unreachable" rfl rfl).1

/-- C13: when identity resolves and an authorizer that is reached (every authorizer before it
returned `(true, nil)`) returns an error, with whatever boolean, the gate logs the error and
answers with status 500 after invoking that authorizer; the wrapped handler is not called and
the authorizers after it play no part. -/
theorem UserAuthMux_authorizer_error (a : App) (r : Request) (uid : Int)
    (pre post : List Authorizer) (f : Authorizer) (b : Bool) (e : Error)
    (hres : resolvesTo a r uid) (hpre : ∀ g ∈ pre, g r uid = (true, none))
    (hf : f r uid = (b, some e)) :
    UserAuthMux a (pre ++ f :: post) r =
      passedEvents 0 pre.length ++
        [Event.authorizer pre.length b (some e), Event.logError (some e),
         Event.httpError "failed to verify authority" 500] ∧
    ∀ u, ¬ admits (UserAuthMux a (pre ++ f :: post) r) u := by
  have htrace := UserAuthMux_stops_at_error a r uid pre post f b e hres hpre hf
  refine ⟨htrace, ?_⟩
  intro u
  unfold admits
  rw [htrace]
  simp [passedEvents_no_next]

/-- Witness of C13: the second authorizer returns `true` with an error. -/
theorem UserAuthMux_authorizer_error_witness :
    UserAuthMux (exampleApp [] exampleSearch) [allowAuthorizer, errorAuthorizer, denyAuthorizer]
      (exampleRequest [] "comment") =
      [Event.authorizer 0 true none, Event.authorizer 1 true (some "lookup failed"),
       Event.logError (some "lookup failed"),
       Event.httpError "failed to verify authority" 500] :=
  (UserAuthMux_authorizer_error (exampleApp [] exampleSearch) (exampleRequest [] "comment") 7
    [allowAuthorizer] [denyAuthorizer] errorAuthorizer true "lookup failed"
    (by decide) (by decide) rfl).1

/-- C14: when identity resolution does not succeed (the cookie does not decode, the session
lookup returns an error, or there is no valid session), the gate invokes no authorizer, does
not call the wrapped handler, and does the same whatever the authorizers are. -/
theorem UserAuthMux_unresolved (a : App) (authorizers : List Authorizer) (r : Request)
    (hfail : (a.GetSecretFromCookie r).2 ≠ none ∨
      (a.Service.GetUIDFromSession (a.GetSecretFromCookie r).1).2.2 ≠ none ∨
      (a.Service.GetUIDFromSession (a.GetSecretFromCookie r).1).2.1 = false) :
    (∀ i ok err, Event.authorizer i ok err ∉ UserAuthMux a authorizers r) ∧
    (∀ u, ¬ admits (UserAuthMux a authorizers r) u) ∧
    (∀ l2 : List Authorizer, UserAuthMux a l2 r = UserAuthMux a authorizers r) := by
  have hshape : ∃ err msg code, ∀ l : List Authorizer,
      UserAuthMux a l r = [Event.logError err, Event.httpError msg code] := by
    cases hc : (a.GetSecretFromCookie r).2 with
    | some e => exact ⟨_, _, _, fun l => UserAuthMux_cookie_error a l r e hc⟩
    | none =>
      cases hs : (a.Service.GetUIDFromSession (a.GetSecretFromCookie r).1).2.2 with
      | some e => exact ⟨_, _, _, fun l => UserAuthMux_lookup_error a l r e hc hs⟩
      | none =>
        have hok : (a.Service.GetUIDFromSession (a.GetSecretFromCookie r).1).2.1 = false := by
          rcases hfail with h | h | h
          · exact absurd hc h
          · exact absurd hs h
          · exact h
        exact ⟨_, _, _, fun l => UserAuthMux_no_session a l r hc hs hok⟩
  obtain ⟨err, msg, code, hall⟩ := hshape
  refine ⟨?_, ?_, ?_⟩
  · intro i ok e
    rw [hall]
    simp
  · intro u
    unfold admits
    rw [hall]
    simp
  · intro l2
    rw [hall, hall]

/-- Witness of C14: an expired session, with an authorizer that would admit. -/
theorem UserAuthMux_unresolved_witness :
    Event.authorizer 0 true none ∉ UserAuthMux (sessionApp (7, false, none) ([], none))
      [allowAuthorizer] (exampleRequest [] "comment") ∧
    ¬ admits (UserAuthMux (sessionApp (7, false, none) ([], none)) [allowAuthorizer]
      (exampleRequest [] "comment")) 7 :=
  ⟨(UserAuthMux_unresolved (sessionApp (7, false, none) ([], none)) [allowAuthorizer]
      (exampleRequest [] "comment") (Or.inr (Or.inr rfl))).1 0 true none,
   (UserAuthMux_unresolved (sessionApp (7, false, none) ([], none)) [allowAuthorizer]
      (exampleRequest [] "comment") (Or.inr (Or.inr rfl))).2.1 7⟩

/-- C18: when identity resolves and the list of authorizers is not empty, the authorizers are
invoked in order up to the first one whose result is not `(true, nil)`, and no further: if it
returned an error the gate answers with status 500, if it returned `(false, nil)` with status
401, whatever the authorizers after it would return. -/
theorem UserAuthMux_first_failure_decides (a : App) (r : Request) (uid : Int)
    (pre post : List Authorizer) (f : Authorizer)
    (hres : resolvesTo a r uid) (hpre : ∀ g ∈ pre, g r uid = (true, none)) :
    (∀ b e, f r uid = (b, some e) →
      UserAuthMux a (pre ++ f :: post) r =
        passedEvents 0 pre.length ++
          [Event.authorizer pre.length b (some e), Event.logError (some e),
           Event.httpError "failed to verify authority" 500]) ∧
    (f r uid = (false, none) →
      UserAuthMux a (pre ++ f :: post) r =
        passedEvents 0 pre.length ++
          [Event.authorizer pre.length false none, Event.logInfo "unauthorized attempt",
           Event.httpError "you do not have the proper authorization to access this page"
             401]) :=
  ⟨fun b e hf => UserAuthMux_stops_at_error a r uid pre post f b e hres hpre hf,
   fun hf => UserAuthMux_stops_at_false a r uid pre post f hres hpre hf⟩

/-- Witness of C18: an authorizer that denies, followed by one that would return an error:
the answer is 401 and the second one is not invoked. -/
theorem UserAuthMux_first_failure_decides_witness :
    UserAuthMux (exampleApp [] exampleSearch) [allowAuthorizer, denyAuthorizer, errorAuthorizer]
      (exampleRequest [] "comment") =
      [Event.authorizer 0 true none, Event.authorizer 1 false none,
       Event.logInfo "unauthorized attempt",
       Event.httpError "you do not have the proper authorization to access this page" 401] :=
  (UserAuthMux_first_failure_decides (exampleApp [] exampleSearch) (exampleRequest [] "comment")
    7 [allowAuthorizer] [errorAuthorizer] denyAuthorizer (by decide) (by decide)).2 rfl

/-! ## Panics, invalid resources and failed role lookups -/

/-- C12: `UserOwnsResource` can panic. With the file-id key, a path parameter that parses and
a file lookup that returns no file and no error, the code indexes `submissionFiles[0]` of an
empty slice. -/
theorem UserOwnsResource_file_panics :
    ((exampleApp [] exampleSearch).Service.GetSubmissionFiles [5]) = ([], none) ∧
    UserOwnsResource exampleConstants (exampleApp [] exampleSearch)
      (exampleRequest [("file-id", "5")] "comment") 7 "file-id" =
      ([Lookup.GetSubmissionFiles [5]], Outcome.panic "index out of range [0] with length 0") := by
  decide

/-- C15: for a resource key that is none of the three recognized keys `UserOwnsResource`
returns the error `invalid resource` without any lookup, and for a resource key other than
the submission key `IsUserWithinResourceLimit` returns the error `invalid resource`. -/
theorem invalid_resource_is_error (c : Constants) (a : App) (r : Request) (uid : Int)
    (resourceKey : String) (resourceAmount : Int) :
    (resourceKey ≠ c.ResourceKeySubmissionID → resourceKey ≠ c.ResourceKeySubmissionIDs →
      resourceKey ≠ c.ResourceKeyFileID →
      UserOwnsResource c a r uid resourceKey =
        ([], Outcome.ret false (some "invalid resource"))) ∧
    (resourceKey ≠ c.ResourceKeySubmissionID →
      IsUserWithinResourceLimit c a r uid resourceKey resourceAmount =
        (false, some "invalid resource")) := by
  constructor
  · intro h1 h2 h3
    unfold UserOwnsResource
    simp only [h1, h2, h3, if_false]
  · intro h1
    unfold IsUserWithinResourceLimit
    simp only [h1, if_false]

/-- Witness of C15: the key `curation-id` is not a resource key. -/
theorem invalid_resource_is_error_witness :
    UserOwnsResource exampleConstants (exampleApp [] exampleSearch)
      (exampleRequest [("curation-id", "3")] "comment") 7 "curation-id" =
      ([], Outcome.ret false (some "invalid resource")) ∧
    IsUserWithinResourceLimit exampleConstants (exampleApp [] exampleSearch)
      (exampleRequest [("curation-id", "3")] "comment") 7 "curation-id" 10 =
      (false, some "invalid resource") :=
  ⟨(invalid_resource_is_error exampleConstants (exampleApp [] exampleSearch)
      (exampleRequest [("curation-id", "3")] "comment") 7 "curation-id" 10).1
      (by decide) (by decide) (by decide),
   (invalid_resource_is_error exampleConstants (exampleApp [] exampleSearch)
      (exampleRequest [("curation-id", "3")] "comment") 7 "curation-id" 10).2 (by decide)⟩

/-- C16: when the role lookup returns an error, `UserHasAllRoles` returns `false` with the
error `failed to get user roles` and `UserHasAnyRole` returns `false` with the error of the
lookup, whatever the roles asked for and whatever roles the lookup returned with the error. -/
theorem role_lookup_error_is_error (a : App) (r : Request) (uid : Int)
    (requiredRoles roles : List String) (e : Error)
    (herr : (a.Service.GetUserRoles uid).2 = some e) :
    UserHasAllRoles a uid requiredRoles = (false, some "failed to get user roles") ∧
    UserHasAnyRole a r uid roles = (false, some e) := by
  constructor
  · unfold UserHasAllRoles
    simp [herr]
  · unfold UserHasAnyRole
    simp [herr]

/-- Witness of C16: the role store is unreachable and returns every role with the error. -/
theorem role_lookup_error_is_error_witness :
    UserHasAllRoles (sessionApp (7, true, none) (["Administrator"], some "database unreachable"))
      7 [] = (false, some "failed to get user roles") ∧
    UserHasAnyRole (sessionApp (7, true, none) (["Administrator"], some "database unreachable"))
      (exampleRequest [] "comment") 7 ["Administrator"] = (false, some "database unreachable") :=
  role_lookup_error_is_error
    (sessionApp (7, true, none) (["Administrator"], some "database unreachable"))
    (exampleRequest [] "comment") 7 [] ["Administrator"] "database unreachable" rfl

/-- C17: `IsUserWithinResourceLimit` does not accept a user who has exactly the given amount
of submissions: user 7 has two submissions, the amount is 2, so the user has no more than the
amount, and the function returns `(false, nil)`. -/
theorem IsUserWithinResourceLimit_at_amount_denied :
    (exampleApp [] exampleSearch).Service.SearchSubmissions ⟨none, some 7⟩
      = ([⟨3, 7⟩, ⟨4, 7⟩], none) ∧
    (([⟨3, 7⟩, ⟨4, 7⟩] : List Submission).length : Int) ≤ 2 ∧
    IsUserWithinResourceLimit exampleConstants (exampleApp [] exampleSearch)
      (exampleRequest [] "comment") 7 "submission-id" 2 = (false, none) := by
  decide

/-! ## UserHasAllRoles: what the loops decide -/

theorem foundRole_iff (role : String) (requiredRoles : List String) :
    foundRole role requiredRoles = true ↔ role ∈ requiredRoles := by
  induction requiredRoles with
  | nil => simp [foundRole]
  | cons requiredRole rest ih =>
    simp only [foundRole, List.mem_cons]
    split_ifs with h
    · simp [h]
    · rw [ih]
      simp [h]

theorem isAuthorized_iff (requiredRoles userRoles : List String) :
    isAuthorized requiredRoles userRoles = true ↔ ∀ role ∈ userRoles, role ∈ requiredRoles := by
  induction userRoles with
  | nil => simp [isAuthorized]
  | cons role rest ih =>
    simp only [isAuthorized, List.mem_cons, forall_eq_or_imp]
    cases hfound : foundRole role requiredRoles with
    | true =>
      have hmem : role ∈ requiredRoles := (foundRole_iff _ _).mp hfound
      simp [ih, hmem]
    | false =>
      have hmem : role ∉ requiredRoles := fun h => by
        have := (foundRole_iff _ _).mpr h
        rw [hfound] at this
        exact Bool.false_ne_true this
      simp [hmem]

theorem UserHasAllRoles_value (a : App) (uid : Int) (requiredRoles userRoles : List String)
    (hroles : a.Service.GetUserRoles uid = (userRoles, none)) :
    UserHasAllRoles a uid requiredRoles = (isAuthorized requiredRoles userRoles, none) := by
  unfold UserHasAllRoles
  cases h : isAuthorized requiredRoles userRoles <;> simp [hroles, h]

/-- C19: when the role lookup succeeds with `userRoles`, `UserHasAllRoles` returns
`(true, nil)` exactly when every role of the user occurs in `requiredRoles`, and `(false, nil)`
otherwise. So a user without roles is admitted for every `requiredRoles`, and a user who is
given one more role, which is not required, is denied. -/
theorem UserHasAllRoles_user_roles_subset (a : App) (uid : Int)
    (requiredRoles userRoles : List String)
    (hroles : a.Service.GetUserRoles uid = (userRoles, none)) :
    (UserHasAllRoles a uid requiredRoles = (true, none) ↔
      ∀ role ∈ userRoles, role ∈ requiredRoles) ∧
    (¬ (∀ role ∈ userRoles, role ∈ requiredRoles) →
      UserHasAllRoles a uid requiredRoles = (false, none)) ∧
    (userRoles = [] → UserHasAllRoles a uid requiredRoles = (true, none)) ∧
    (∀ (a2 : App) (role : String), a2.Service.GetUserRoles uid = (role :: userRoles, none) →
      role ∉ requiredRoles → UserHasAllRoles a2 uid requiredRoles = (false, none)) := by
  have hiff : ∀ (b : App) (roles : List String), b.Service.GetUserRoles uid = (roles, none) →
      (UserHasAllRoles b uid requiredRoles = (true, none) ↔
        ∀ role ∈ roles, role ∈ requiredRoles) := by
    intro b roles hb
    rw [UserHasAllRoles_value b uid requiredRoles roles hb, ← isAuthorized_iff]
    simp
  have hnot : ∀ (b : App) (roles : List String), b.Service.GetUserRoles uid = (roles, none) →
      ¬ (∀ role ∈ roles, role ∈ requiredRoles) →
      UserHasAllRoles b uid requiredRoles = (false, none) := by
    intro b roles hb hn
    rw [UserHasAllRoles_value b uid requiredRoles roles hb]
    rw [← isAuthorized_iff, Bool.not_eq_true] at hn
    rw [hn]
  refine ⟨hiff a userRoles hroles, hnot a userRoles hroles, ?_, ?_⟩
  · intro hempty
    subst hempty
    exact (hiff a [] hroles).mpr (by simp)
  · intro a2 role h2 hrole
    apply hnot a2 (role :: userRoles) h2
    intro hall
    exact hrole (hall role (List.mem_cons_self _ _))

/-- Witness of C19: a user without roles has "all" of the roles `Administrator`, `Curator`. -/
theorem UserHasAllRoles_user_roles_subset_witness :
    UserHasAllRoles (exampleApp [] exampleSearch) 7 ["Administrator", "Curator"]
      = (true, none) :=
  (UserHasAllRoles_user_roles_subset (exampleApp [] exampleSearch) 7
    ["Administrator", "Curator"] [] rfl).2.2.1 rfl

/-! ## UserOwnsResource: the id list is never empty -/

theorem splitLoop_ne_nil (cs cur : List Char) : splitLoop cs cur ≠ [] := by
  induction cs generalizing cur with
  | nil => simp [splitLoop]
  | cons c rest ih =>
    simp only [splitLoop]
    split_ifs
    · simp
    · exact ih _

theorem splitLoop_mem_after_comma (p q cur : List Char) (x : String)
    (hx : x ∈ splitLoop q []) : x ∈ splitLoop (p ++ ',' :: q) cur := by
  induction p generalizing cur with
  | nil => simp [splitLoop, hx]
  | cons c rest ih =>
    rw [List.cons_append]
    simp only [splitLoop]
    split_ifs
    · exact List.mem_cons_of_mem _ (ih [])
    · exact ih _

theorem splitLoop_comma_head (q : List Char) : "" ∈ splitLoop (',' :: q) [] := by
  simp only [splitLoop, if_true]
  exact List.mem_cons_self _ _

theorem parseLoop_length (l : List String) (acc sids : List Int)
    (h : parseLoop l acc = some sids) : sids.length = acc.length + l.length := by
  induction l generalizing acc with
  | nil =>
    simp only [parseLoop, Option.some.injEq] at h
    simp [← h]
  | cons e rest ih =>
    simp only [parseLoop] at h
    split_ifs at h
    have := ih _ h
    simp only [List.length_append, List.length_singleton, List.length_cons,
      List.length_nil] at this ⊢
    omega

theorem lookupLoop_cons_calls (a : App) (uid sid : Int) (rest : List Int) :
    ∃ tl, (lookupLoop a uid (sid :: rest)).1 = Lookup.SearchSubmissions ⟨some sid, none⟩ :: tl := by
  simp only [lookupLoop]
  split_ifs
  · exact ⟨[], rfl⟩
  · split
    · exact ⟨[], rfl⟩
    · split_ifs
      · exact ⟨[], rfl⟩
      · exact ⟨_, rfl⟩

/-- C20: `UserOwnsResource` with the id-list key. Splitting the `submission-ids` parameter
never gives an empty list; an empty entry (also the single entry of a missing or empty
parameter, the entry between two adjacent commas, the entry after a trailing comma) makes the
function return the error `invalid submission id` without any lookup; and whenever the
function returns `(true, nil)` it has looked up at least one submission. -/
theorem UserOwnsResource_idList_not_vacuous (c : Constants) (a : App) (r : Request) (uid : Int)
    (resourceKey : String)
    (hkey : resourceKey = c.ResourceKeySubmissionIDs)
    (hne : c.ResourceKeySubmissionIDs ≠ c.ResourceKeySubmissionID) :
    Split (mapIndex r.Vars "submission-ids") ≠ [] ∧
    ("" ∈ Split (mapIndex r.Vars "submission-ids") →
      UserOwnsResource c a r uid resourceKey
        = ([], Outcome.ret false (some "invalid submission id"))) ∧
    (r.Vars.lookup "submission-ids" = none ∨ r.Vars.lookup "submission-ids" = some "" →
      UserOwnsResource c a r uid resourceKey
        = ([], Outcome.ret false (some "invalid submission id"))) ∧
    (∀ p q, (mapIndex r.Vars "submission-ids").data = p ++ ',' :: ',' :: q →
      "" ∈ Split (mapIndex r.Vars "submission-ids")) ∧
    (∀ p, (mapIndex r.Vars "submission-ids").data = p ++ [','] →
      "" ∈ Split (mapIndex r.Vars "submission-ids")) ∧
    ((UserOwnsResource c a r uid resourceKey).2 = Outcome.ret true none →
      ∃ sid rest, (UserOwnsResource c a r uid resourceKey).1
        = Lookup.SearchSubmissions ⟨some sid, none⟩ :: rest) := by
  have hempty : (ParseInt "").2 ≠ none := by decide
  have hbad : "" ∈ Split (mapIndex r.Vars "submission-ids") →
      UserOwnsResource c a r uid resourceKey
        = ([], Outcome.ret false (some "invalid submission id")) := by
    intro hmem
    subst hkey
    unfold UserOwnsResource
    simp only [hne, if_false, if_true, parseLoop_some_bad _ [] ⟨"", hmem, hempty⟩]
  refine ⟨splitLoop_ne_nil _ _, hbad, ?_, ?_, ?_, ?_⟩
  · intro hmissing
    apply hbad
    have hparam : mapIndex r.Vars "submission-ids" = "" := by
      unfold mapIndex
      rcases hmissing with h | h <;> simp [h]
    rw [hparam]
    decide
  · intro p q hdata
    unfold Split
    rw [hdata]
    exact splitLoop_mem_after_comma p (',' :: q) [] "" (splitLoop_comma_head q)
  · intro p hdata
    unfold Split
    rw [hdata]
    exact splitLoop_mem_after_comma p [] [] "" (by simp [splitLoop])
  · subst hkey
    unfold UserOwnsResource
    simp only [hne, if_false, if_true]
    cases hparse : parseLoop (Split (mapIndex r.Vars "submission-ids")) [] with
    | none => simp
    | some sids =>
      have hlen := parseLoop_length _ _ _ hparse
      have hsplit : (Split (mapIndex r.Vars "submission-ids")).length ≠ 0 := by
        intro h0
        exact splitLoop_ne_nil _ _ (List.length_eq_zero.mp h0)
      cases sids with
      | nil =>
        simp only [List.length_nil, Nat.zero_add] at hlen
        exact absurd hlen.symm hsplit
      | cons sid rest =>
        obtain ⟨tl, htl⟩ := lookupLoop_cons_calls a uid sid rest
        rcases hl : lookupLoop a uid (sid :: rest) with ⟨calls, out⟩
        rw [hl] at htl
        simp only at htl
        subst htl
        intro _
        cases out <;> simp only [hl] <;> exact ⟨sid, tl, rfl⟩

/-- Witness of C20: the parameter `3,,4` has an empty entry. -/
theorem UserOwnsResource_idList_not_vacuous_witness :
    "" ∈ Split (mapIndex (exampleRequest [("submission-ids", "3,,4")] "comment").Vars
      "submission-ids") ∧
    UserOwnsResource exampleConstants (exampleApp [] exampleSearch)
      (exampleRequest [("submission-ids", "3,,4")] "comment") 7 "submission-ids"
      = ([], Outcome.ret false (some "invalid submission id")) :=
  ⟨by decide,
   (UserOwnsResource_idList_not_vacuous exampleConstants (exampleApp [] exampleSearch)
      (exampleRequest [("submission-ids", "3,,4")] "comment") 7 "submission-ids"
      rfl (by decide)).2.1 (by decide)⟩

end Transport
